import Mathlib

/-!
Shallow embedding of the real-favicon build-time favicon pipeline.

The embedded code is:
  * src/core/generate.ts   — generateFavicons, the persistence pipeline
  * src/adapters/node.ts   — generateFaviconsNode
  * the Vite adapter       — realFavicon().buildStart

Modelling conventions:
  * Each external effect (filesystem call, collaborator call, hook call)
    appends an Event to a trace; the pipeline runs in a writer/except
    computation Pipe over that trace.  The trace is kept even when the
    computation fails, matching the fact that hooks already fired stay
    fired and I/O already performed stays performed.
  * The outcome of every external operation is supplied by an Env record
    (collaborators are functions of their actual arguments).  Success or
    failure of filesystem operations is a boolean field of Env.
  * Hooks are optional slots.  A slot is `none` (absent: optional chaining
    makes the call a no-op), `some false` (present, returns normally) or
    `some true` (present, throws when invoked).
  * JavaScript truthiness: a missing or empty string is falsy, so a
    required string option is modelled as a String where "" plays the
    role of absent-or-empty, and an optional string option as an
    Option String whose truthiness is `some s` with s nonempty.
  * The options object is, for the destructuring in generate.ts lines
    66-75, additionally modelled as an association list OptionsMap; the
    pipeline itself runs over the typed view Request.
  * The concurrent Promise.all over file writes is linearised in the
    list order of the generated file set; file bytes are abstracted to
    an opaque Nat token since no property here depends on the content
    normalisation, only on which files are written and in what phase.
  * path.join, path.dirname and path.resolve are Node built-ins and are
    treated as abstract functions supplied by the environment / caller.
-/

namespace RealFavicon

/-- Lifecycle hook record, mirroring GenerateFaviconsHooks in
src/core/types.ts.  Each slot: none = absent, some b = present with
b = "throws when invoked". -/
structure Hooks where
  onStart : Option Bool := none
  onSkipFiles : Option Bool := none
  onFileWritten : Option Bool := none
  onHtmlWritten : Option Bool := none
  onIcoCopied : Option Bool := none
deriving DecidableEq, Repr

/-- A value stored in the raw options object (string, boolean, an opaque
settings payload token, or the hooks record). -/
inductive OptVal where
  | s (v : String)
  | b (v : Bool)
  | n (v : Nat)
  | hk (v : Hooks)
deriving DecidableEq, Repr

/-- The raw options object of generateFavicons, as an association list
from property name to value (a JavaScript object has no duplicate keys;
the model does not need that assumption). -/
abbrev OptionsMap := List (String × OptVal)

/-- Typed view of the options object after the destructuring on
generate.ts lines 66-75.  `settings` is the rest-spread
`...faviconSettings`. -/
structure Request where
  source : String := ""
  outputDir : String := ""
  htmlOutput : Option String := none
  skipIfExists : Option Bool := none
  copyIcoToRoot : Bool := false
  rootDir : Option String := none
  hooks : Hooks := {}
  settings : OptionsMap := []
deriving DecidableEq, Repr

/-- `skipIfExists = true` destructuring default (generate.ts line 70). -/
def skipEnabled (req : Request) : Bool := req.skipIfExists.getD true

/-- Truthiness of an optional string (undefined and "" are falsy). -/
def truthyStr : Option String → Bool
  | some s => !s.isEmpty
  | none => false

/-- Observable events of one invocation: hook calls and external
operations, in program order (file writes linearised). -/
inductive Event where
  | onStart
  | onSkipFiles (dir : String)
  | onFileWritten (p : String)
  | onHtmlWritten (p : String)
  | onIcoCopied (p : String)
  | ioAccess (dir : String)
  | ioMkdirOut (dir : String)
  | ioLoadSvg (src : String)
  | ioGetAdapter
  | ioGenerateFiles (settings : OptionsMap)
  | ioWriteFile (p : String)
  | ioCopyFile (src tgt : String)
  | ioGenHtml (settings : OptionsMap) (html : String)
  | ioMkdirHtml (dir : String)
  | ioWriteHtml (p : String) (content : String)
deriving DecidableEq, Repr

/-- Errors surfaced by the pipeline. -/
inductive Err where
  | missingSource
  | missingOutputDir
  | missingRootDir
  | hookErr (name : String)
  | ioErr (what : String)
  | collabErr (msg : String)
deriving DecidableEq, Repr

/-- Outcomes of the external world for one invocation.  Collaborators
are functions of their actual arguments; filesystem success flags are
booleans (or boolean-valued functions of the target path). -/
structure Env where
  accessOk : Bool
  mkdirOutOk : Bool
  loadSvg : String → Except String Nat
  adapter : Except String Nat
  fileSet : Nat → OptionsMap → Nat → Except String (List (String × Nat))
  writeOk : String → Bool
  copyOk : Bool
  markups : OptionsMap → List String
  mkdirHtmlOk : Bool
  writeHtmlOk : Bool
  joinPath : String → String → String
  dirname : String → String

/-- The pipeline computation: threads the event trace, may fail.  The
trace survives failure. -/
def Pipe (α : Type) : Type := List Event → Except Err α × List Event

/-- Return. -/
def Pipe.pure (a : α) : Pipe α := fun tr => (.ok a, tr)

/-- Sequencing: an error short-circuits, keeping the trace so far. -/
def Pipe.bind (x : Pipe α) (f : α → Pipe β) : Pipe β := fun tr =>
  match x tr with
  | (.ok a, tr') => f a tr'
  | (.error e, tr') => (.error e, tr')

/-- Record one event. -/
def emit (e : Event) : Pipe Unit := fun tr => (.ok (), tr ++ [e])

/-- Raise an error. -/
def throwE (e : Err) : Pipe α := fun tr => (.error e, tr)

/-- Invoke an optional hook slot: absent is a no-op; present records the
call event, then throws iff the slot throws. -/
def fireHook (slot : Option Bool) (ev : Event) (er : Err) : Pipe Unit :=
  match slot with
  | none => Pipe.pure ()
  | some throws =>
      Pipe.bind (emit ev) fun _ =>
        if throws then throwE er else Pipe.pure ()

/-- The idempotency probe, generate.ts lines 97-107.  The try block
wraps fs.access, the assignment and the onSkipFiles hook call; the bare
catch swallows any failure inside it and leaves outputDirExists false.
In particular a throwing onSkipFiles hook is swallowed and the probe
reports "does not exist". -/
def skipCheck (req : Request) (env : Env) : Pipe Bool :=
  if skipEnabled req then
    Pipe.bind (emit (.ioAccess req.outputDir)) fun _ =>
      if env.accessOk then
        match req.hooks.onSkipFiles with
        | none => Pipe.pure true
        | some throws =>
            Pipe.bind (emit (.onSkipFiles req.outputDir)) fun _ =>
              Pipe.pure (!throws)
      else Pipe.pure false
  else Pipe.pure false

/-- Validation (generate.ts lines 77-83), onStart (line 85) and the
idempotency probe, returning outputDirExists. -/
def preFiles (req : Request) (env : Env) : Pipe Bool :=
  if req.source.isEmpty then throwE .missingSource
  else if req.outputDir.isEmpty then throwE .missingOutputDir
  else
    Pipe.bind (fireHook req.hooks.onStart .onStart (.hookErr "onStart")) fun _ =>
      skipCheck req env

/-- One file write of the Promise.all block (generate.ts lines 152-166):
write, then fire onFileWritten with the target path. -/
def writeOne (req : Request) (env : Env) (f : String × Nat) : Pipe Unit :=
  Pipe.bind (emit (.ioWriteFile (env.joinPath req.outputDir f.1))) fun _ =>
    if env.writeOk (env.joinPath req.outputDir f.1) then
      fireHook req.hooks.onFileWritten
        (.onFileWritten (env.joinPath req.outputDir f.1)) (.hookErr "onFileWritten")
    else throwE (.ioErr "writeFile")

/-- Linearisation of the concurrent writes, in file-set order. -/
def writeAll (req : Request) (env : Env) : List (String × Nat) → Pipe Unit
  | [] => Pipe.pure ()
  | f :: rest => Pipe.bind (writeOne req env f) fun _ => writeAll req env rest

/-- Optional favicon.ico copy (generate.ts lines 174-186): the rootDir
requirement is enforced here, inside the files phase. -/
def icoCopy (req : Request) (env : Env) : Pipe Unit :=
  if req.copyIcoToRoot then
    if truthyStr req.rootDir then
      Pipe.bind
        (emit (.ioCopyFile (env.joinPath req.outputDir "favicon.ico")
          (env.joinPath (req.rootDir.getD "") "favicon.ico"))) fun _ =>
        if env.copyOk then
          fireHook req.hooks.onIcoCopied
            (.onIcoCopied (env.joinPath (req.rootDir.getD "") "favicon.ico"))
            (.hookErr "onIcoCopied")
        else throwE (.ioErr "copyFile")
    else throwE .missingRootDir
  else Pipe.pure ()

/-- The files phase (generate.ts lines 109-187): mkdir, normalise the
source image, obtain the image adapter, generate the file set, persist
it, optionally copy favicon.ico to the root. -/
def filesPhase (req : Request) (env : Env) : Pipe Unit :=
  Pipe.bind (emit (.ioMkdirOut req.outputDir)) fun _ =>
    if env.mkdirOutOk then
      Pipe.bind (emit (.ioLoadSvg req.source)) fun _ =>
        match env.loadSvg req.source with
        | .error m => throwE (.collabErr m)
        | .ok icon =>
            Pipe.bind (emit .ioGetAdapter) fun _ =>
              match env.adapter with
              | .error m => throwE (.collabErr m)
              | .ok ad =>
                  Pipe.bind (emit (.ioGenerateFiles req.settings)) fun _ =>
                    match env.fileSet icon req.settings ad with
                    | .error m => throwE (.collabErr m)
                    | .ok files =>
                        Pipe.bind (writeAll req env files) fun _ =>
                          icoCopy req env
    else throwE (.ioErr "mkdir")

/-- HTML phase (generate.ts lines 204-218): always invoke the HTML
collaborator and join its markups; if htmlOutput is truthy, mkdir its
parent, write the markup, fire onHtmlWritten. -/
def htmlPhase (req : Request) (env : Env) : Pipe Unit :=
  Pipe.bind
    (emit (.ioGenHtml req.settings (String.join (env.markups req.settings)))) fun _ =>
    if truthyStr req.htmlOutput then
      Pipe.bind (emit (.ioMkdirHtml (env.dirname (req.htmlOutput.getD "")))) fun _ =>
        if env.mkdirHtmlOk then
          Pipe.bind
            (emit (.ioWriteHtml (req.htmlOutput.getD "")
              (String.join (env.markups req.settings)))) fun _ =>
            if env.writeHtmlOk then
              fireHook req.hooks.onHtmlWritten
                (.onHtmlWritten (req.htmlOutput.getD "")) (.hookErr "onHtmlWritten")
            else throwE (.ioErr "writeHtml")
        else throwE (.ioErr "mkdirHtml")
    else Pipe.pure ()

/-- Everything before the HTML phase. -/
def preHtml (req : Request) (env : Env) : Pipe Unit :=
  Pipe.bind (preFiles req env) fun exists_ =>
    if exists_ then Pipe.pure () else filesPhase req env

/-- The whole pipeline. -/
def generateFaviconsM (req : Request) (env : Env) : Pipe Unit :=
  Pipe.bind (preHtml req env) fun _ => htmlPhase req env

/-- Run generateFavicons on an empty trace: final outcome and the full
event trace of the invocation. -/
def generateFavicons (req : Request) (env : Env) : Except Err Unit × List Event :=
  generateFaviconsM req env []

/-- The condition under which the files phase is actually bypassed: the
probe is enabled, fs.access succeeds, and the onSkipFiles hook does not
throw (a throwing hook is swallowed by the catch, which resets
outputDirExists to false). -/
def filesPhaseSkipped (req : Request) (env : Env) : Bool :=
  skipEnabled req && env.accessOk && !(req.hooks.onSkipFiles == some true)

/-- Events produced by invoking one hook slot. -/
def hookEvs (slot : Option Bool) (ev : Event) : List Event :=
  match slot with
  | none => []
  | some _ => [ev]

/-- Events produced by the linearised write batch when every write
succeeds and the onFileWritten hook does not throw. -/
def writeEvs (req : Request) (env : Env) : List (String × Nat) → List Event
  | [] => []
  | f :: rest =>
      .ioWriteFile (env.joinPath req.outputDir f.1) ::
        (hookEvs req.hooks.onFileWritten
          (.onFileWritten (env.joinPath req.outputDir f.1)) ++ writeEvs req env rest)

/-- Events of the idempotency probe on a run where the files phase is
not skipped. -/
def probeEvs (req : Request) (env : Env) : List Event :=
  if skipEnabled req then
    if env.accessOk then [.ioAccess req.outputDir, .onSkipFiles req.outputDir]
    else [.ioAccess req.outputDir]
  else []

theorem pure_apply (a : α) (tr : List Event) : Pipe.pure a tr = (.ok a, tr) := rfl

theorem throwE_apply (e : Err) (tr : List Event) :
    (throwE e : Pipe α) tr = (.error e, tr) := rfl

theorem emit_apply (e : Event) (tr : List Event) : emit e tr = (.ok (), tr ++ [e]) := rfl

theorem fireHook_none (ev : Event) (er : Err) (tr : List Event) :
    fireHook none ev er tr = (.ok (), tr) := rfl

theorem fireHook_ok (ev : Event) (er : Err) (tr : List Event) :
    fireHook (some false) ev er tr = (.ok (), tr ++ [ev]) := rfl

theorem fireHook_throw (ev : Event) (er : Err) (tr : List Event) :
    fireHook (some true) ev er tr = (.error er, tr ++ [ev]) := rfl

theorem skipCheck_disabled (req : Request) (env : Env) (tr : List Event)
    (h : skipEnabled req = false) : skipCheck req env tr = (.ok false, tr) := by
  simp [skipCheck, h, Pipe.pure]

theorem skipCheck_noAccess (req : Request) (env : Env) (tr : List Event)
    (h1 : skipEnabled req = true) (h2 : env.accessOk = false) :
    skipCheck req env tr = (.ok false, tr ++ [.ioAccess req.outputDir]) := by
  simp [skipCheck, h1, h2, Pipe.bind, Pipe.pure, emit]

theorem skipCheck_hit_none (req : Request) (env : Env) (tr : List Event)
    (h1 : skipEnabled req = true) (h2 : env.accessOk = true)
    (h3 : req.hooks.onSkipFiles = none) :
    skipCheck req env tr = (.ok true, tr ++ [.ioAccess req.outputDir]) := by
  simp [skipCheck, h1, h2, h3, Pipe.bind, Pipe.pure, emit]

theorem skipCheck_hit_hook (req : Request) (env : Env) (tr : List Event)
    (h1 : skipEnabled req = true) (h2 : env.accessOk = true)
    (h3 : req.hooks.onSkipFiles = some false) :
    skipCheck req env tr =
      (.ok true, tr ++ [.ioAccess req.outputDir, .onSkipFiles req.outputDir]) := by
  simp [skipCheck, h1, h2, h3, Pipe.bind, Pipe.pure, emit]

theorem skipCheck_hit_hookThrow (req : Request) (env : Env) (tr : List Event)
    (h1 : skipEnabled req = true) (h2 : env.accessOk = true)
    (h3 : req.hooks.onSkipFiles = some true) :
    skipCheck req env tr =
      (.ok false, tr ++ [.ioAccess req.outputDir, .onSkipFiles req.outputDir]) := by
  simp [skipCheck, h1, h2, h3, Pipe.bind, Pipe.pure, emit]

theorem preFiles_missingSource (req : Request) (env : Env) (tr : List Event)
    (h : req.source.isEmpty = true) :
    preFiles req env tr = (.error .missingSource, tr) := by
  simp [preFiles, h, throwE]

theorem preFiles_missingOutputDir (req : Request) (env : Env) (tr : List Event)
    (h1 : req.source.isEmpty = false) (h2 : req.outputDir.isEmpty = true) :
    preFiles req env tr = (.error .missingOutputDir, tr) := by
  simp [preFiles, h1, h2, throwE]

theorem preFiles_onStartThrow (req : Request) (env : Env) (tr : List Event)
    (h1 : req.source.isEmpty = false) (h2 : req.outputDir.isEmpty = false)
    (h3 : req.hooks.onStart = some true) :
    preFiles req env tr = (.error (.hookErr "onStart"), tr ++ [.onStart]) := by
  simp [preFiles, h1, h2, h3, fireHook, Pipe.bind, Pipe.pure, emit, throwE]

theorem preFiles_ok (req : Request) (env : Env) (tr : List Event)
    (h1 : req.source.isEmpty = false) (h2 : req.outputDir.isEmpty = false)
    (h3 : req.hooks.onStart ≠ some true) :
    preFiles req env tr = skipCheck req env (tr ++ hookEvs req.hooks.onStart .onStart) := by
  match h : req.hooks.onStart with
  | none => simp [preFiles, h1, h2, h, fireHook, Pipe.bind, Pipe.pure, hookEvs]
  | some true => exact absurd h h3
  | some false => simp [preFiles, h1, h2, h, fireHook, Pipe.bind, Pipe.pure, emit, hookEvs]

theorem writeAll_ok (req : Request) (env : Env) (files : List (String × Nat))
    (h1 : ∀ f ∈ files, env.writeOk (env.joinPath req.outputDir f.1) = true)
    (h2 : req.hooks.onFileWritten ≠ some true) :
    ∀ tr, writeAll req env files tr = (.ok (), tr ++ writeEvs req env files) := by
  induction files with
  | nil => intro tr; simp [writeAll, writeEvs, Pipe.pure]
  | cons f rest ih =>
      intro tr
      have hw : env.writeOk (env.joinPath req.outputDir f.1) = true :=
        h1 f (by simp)
      have ihr := ih (fun g hg => h1 g (by simp [hg]))
      match h : req.hooks.onFileWritten with
      | none =>
          simp [writeAll, writeOne, writeEvs, hw, h, Pipe.bind, emit, fireHook,
            Pipe.pure, hookEvs, ihr]
      | some true => exact absurd h h2
      | some false =>
          simp [writeAll, writeOne, writeEvs, hw, h, Pipe.bind, emit, fireHook,
            Pipe.pure, hookEvs, ihr]

theorem icoCopy_off (req : Request) (env : Env) (tr : List Event)
    (h : req.copyIcoToRoot = false) : icoCopy req env tr = (.ok (), tr) := by
  simp [icoCopy, h, Pipe.pure]

theorem icoCopy_noRoot (req : Request) (env : Env) (tr : List Event)
    (h1 : req.copyIcoToRoot = true) (h2 : truthyStr req.rootDir = false) :
    icoCopy req env tr = (.error .missingRootDir, tr) := by
  simp [icoCopy, h1, h2, throwE]

theorem icoCopy_ok (req : Request) (env : Env) (tr : List Event)
    (h1 : req.copyIcoToRoot = true) (h2 : truthyStr req.rootDir = true)
    (h3 : env.copyOk = true) (h4 : req.hooks.onIcoCopied ≠ some true) :
    icoCopy req env tr =
      (.ok (), tr ++
        (.ioCopyFile (env.joinPath req.outputDir "favicon.ico")
          (env.joinPath (req.rootDir.getD "") "favicon.ico") ::
          hookEvs req.hooks.onIcoCopied
            (.onIcoCopied (env.joinPath (req.rootDir.getD "") "favicon.ico")))) := by
  match h : req.hooks.onIcoCopied with
  | none => simp [icoCopy, h1, h2, h3, h, Pipe.bind, emit, fireHook, Pipe.pure, hookEvs]
  | some true => exact absurd h h4
  | some false =>
      simp [icoCopy, h1, h2, h3, h, Pipe.bind, emit, fireHook, Pipe.pure, hookEvs]

theorem filesPhase_loadFail (req : Request) (env : Env) (tr : List Event) (m : String)
    (h1 : env.mkdirOutOk = true) (h2 : env.loadSvg req.source = .error m) :
    filesPhase req env tr =
      (.error (.collabErr m),
        tr ++ [.ioMkdirOut req.outputDir, .ioLoadSvg req.source]) := by
  simp [filesPhase, h1, h2, Pipe.bind, emit, throwE]

theorem filesPhase_genFail (req : Request) (env : Env) (tr : List Event)
    (icon ad : Nat) (m : String)
    (h1 : env.mkdirOutOk = true) (h2 : env.loadSvg req.source = .ok icon)
    (h3 : env.adapter = .ok ad)
    (h4 : env.fileSet icon req.settings ad = .error m) :
    filesPhase req env tr =
      (.error (.collabErr m),
        tr ++ [.ioMkdirOut req.outputDir, .ioLoadSvg req.source, .ioGetAdapter,
          .ioGenerateFiles req.settings]) := by
  simp [filesPhase, h1, h2, h3, h4, Pipe.bind, emit, throwE]

theorem filesPhase_ok (req : Request) (env : Env) (tr : List Event)
    (icon ad : Nat) (files : List (String × Nat))
    (h1 : env.mkdirOutOk = true) (h2 : env.loadSvg req.source = .ok icon)
    (h3 : env.adapter = .ok ad)
    (h4 : env.fileSet icon req.settings ad = .ok files)
    (h5 : ∀ f ∈ files, env.writeOk (env.joinPath req.outputDir f.1) = true)
    (h6 : req.hooks.onFileWritten ≠ some true) :
    filesPhase req env tr =
      icoCopy req env
        (tr ++ (.ioMkdirOut req.outputDir :: .ioLoadSvg req.source :: .ioGetAdapter ::
          .ioGenerateFiles req.settings :: writeEvs req env files)) := by
  simp [filesPhase, h1, h2, h3, h4, Pipe.bind, emit, writeAll_ok req env files h5 h6]

theorem htmlPhase_noOut (req : Request) (env : Env) (tr : List Event)
    (h : truthyStr req.htmlOutput = false) :
    htmlPhase req env tr =
      (.ok (), tr ++
        [.ioGenHtml req.settings (String.join (env.markups req.settings))]) := by
  simp [htmlPhase, h, Pipe.bind, emit, Pipe.pure]

theorem htmlPhase_out (req : Request) (env : Env) (tr : List Event)
    (h1 : truthyStr req.htmlOutput = true)
    (h2 : env.mkdirHtmlOk = true) (h3 : env.writeHtmlOk = true)
    (h4 : req.hooks.onHtmlWritten ≠ some true) :
    htmlPhase req env tr =
      (.ok (), tr ++
        (.ioGenHtml req.settings (String.join (env.markups req.settings)) ::
          .ioMkdirHtml (env.dirname (req.htmlOutput.getD "")) ::
          .ioWriteHtml (req.htmlOutput.getD "") (String.join (env.markups req.settings)) ::
          hookEvs req.hooks.onHtmlWritten (.onHtmlWritten (req.htmlOutput.getD "")))) := by
  match h : req.hooks.onHtmlWritten with
  | none => simp [htmlPhase, h1, h2, h3, h, Pipe.bind, emit, fireHook, Pipe.pure, hookEvs]
  | some true => exact absurd h h4
  | some false =>
      simp [htmlPhase, h1, h2, h3, h, Pipe.bind, emit, fireHook, Pipe.pure, hookEvs]

theorem htmlPhase_hookThrow (req : Request) (env : Env) (tr : List Event)
    (h1 : truthyStr req.htmlOutput = true)
    (h2 : env.mkdirHtmlOk = true) (h3 : env.writeHtmlOk = true)
    (h4 : req.hooks.onHtmlWritten = some true) :
    htmlPhase req env tr =
      (.error (.hookErr "onHtmlWritten"), tr ++
        [.ioGenHtml req.settings (String.join (env.markups req.settings)),
          .ioMkdirHtml (env.dirname (req.htmlOutput.getD "")),
          .ioWriteHtml (req.htmlOutput.getD "") (String.join (env.markups req.settings)),
          .onHtmlWritten (req.htmlOutput.getD "")]) := by
  simp [htmlPhase, h1, h2, h3, h4, Pipe.bind, emit, fireHook, throwE]

theorem preHtml_skip (req : Request) (env : Env) (tr : List Event)
    (h1 : req.source.isEmpty = false) (h2 : req.outputDir.isEmpty = false)
    (h3 : req.hooks.onStart ≠ some true)
    (h4 : skipEnabled req = true) (h5 : env.accessOk = true)
    (h6 : req.hooks.onSkipFiles ≠ some true) :
    preHtml req env tr =
      (.ok (), tr ++ (hookEvs req.hooks.onStart .onStart ++
        (.ioAccess req.outputDir ::
          hookEvs req.hooks.onSkipFiles (.onSkipFiles req.outputDir)))) := by
  match h : req.hooks.onSkipFiles with
  | some true => exact absurd h h6
  | none =>
      simp [preHtml, preFiles_ok req env tr h1 h2 h3,
        skipCheck_hit_none req env _ h4 h5 h, Pipe.bind, Pipe.pure, hookEvs]
  | some false =>
      simp [preHtml, preFiles_ok req env tr h1 h2 h3,
        skipCheck_hit_hook req env _ h4 h5 h, Pipe.bind, Pipe.pure, hookEvs]

theorem preHtml_files (req : Request) (env : Env) (tr : List Event)
    (h1 : req.source.isEmpty = false) (h2 : req.outputDir.isEmpty = false)
    (h3 : req.hooks.onStart ≠ some true)
    (h4 : filesPhaseSkipped req env = false) :
    preHtml req env tr =
      filesPhase req env
        (tr ++ (hookEvs req.hooks.onStart .onStart ++ probeEvs req env)) := by
  by_cases hs : skipEnabled req = true
  · by_cases ha : env.accessOk = true
    · have hh : req.hooks.onSkipFiles = some true := by
        simp [filesPhaseSkipped, hs, ha] at h4
        exact h4
      simp [preHtml, preFiles_ok req env tr h1 h2 h3,
        skipCheck_hit_hookThrow req env _ hs ha hh, Pipe.bind, probeEvs, hs, ha]
    · have ha' : env.accessOk = false := by simpa using ha
      simp [preHtml, preFiles_ok req env tr h1 h2 h3,
        skipCheck_noAccess req env _ hs ha', Pipe.bind, probeEvs, hs, ha']
  · have hs' : skipEnabled req = false := by simpa using hs
    simp [preHtml, preFiles_ok req env tr h1 h2 h3,
      skipCheck_disabled req env _ hs', Pipe.bind, probeEvs, hs']

/-- A computation only appends events, and every appended event
satisfies P. -/
def Emits (p : Pipe α) (P : Event → Prop) : Prop :=
  ∀ tr, ∃ Δ, (p tr).2 = tr ++ Δ ∧ ∀ e ∈ Δ, P e

theorem emits_pure (a : α) (P : Event → Prop) : Emits (Pipe.pure a) P :=
  fun tr => ⟨[], by simp [Pipe.pure], by simp⟩

theorem emits_throwE (er : Err) (P : Event → Prop) : Emits (throwE er : Pipe α) P :=
  fun tr => ⟨[], by simp [throwE], by simp⟩

theorem emits_emit (e : Event) (P : Event → Prop) (h : P e) : Emits (emit e) P :=
  fun tr => ⟨[e], by simp [emit], by simpa⟩

theorem emits_bind {x : Pipe α} {f : α → Pipe β} {P : Event → Prop}
    (hx : Emits x P) (hf : ∀ a, Emits (f a) P) : Emits (Pipe.bind x f) P := by
  intro tr
  obtain ⟨Δ1, he1, hp1⟩ := hx tr
  match hxtr : x tr with
  | (.error e, tr') =>
      rw [hxtr] at he1
      simp at he1
      refine ⟨Δ1, ?_, hp1⟩
      simp [Pipe.bind, hxtr, he1]
  | (.ok a, tr') =>
      rw [hxtr] at he1
      simp at he1
      obtain ⟨Δ2, he2, hp2⟩ := hf a tr'
      refine ⟨Δ1 ++ Δ2, ?_, ?_⟩
      · simp only [Pipe.bind, hxtr]
        rw [he2, he1, List.append_assoc]
      · intro e he
        rcases List.mem_append.mp he with h | h
        · exact hp1 e h
        · exact hp2 e h

theorem emits_fireHook (slot : Option Bool) (ev : Event) (er : Err)
    (P : Event → Prop) (h : P ev) : Emits (fireHook slot ev er) P := by
  match slot with
  | none => exact emits_pure () P
  | some throws =>
      refine emits_bind (emits_emit ev P h) fun _ => ?_
      by_cases ht : throws = true
      · simp [ht]; exact emits_throwE _ P
      · simp at ht; simp [ht]; exact emits_pure () P

theorem emits_skipCheck (req : Request) (env : Env) (P : Event → Prop)
    (h1 : P (.ioAccess req.outputDir))
    (h2 : env.accessOk = true → P (.onSkipFiles req.outputDir)) :
    Emits (skipCheck req env) P := by
  unfold skipCheck
  by_cases hs : skipEnabled req = true
  · simp only [hs, if_true]
    refine emits_bind (emits_emit _ P h1) fun _ => ?_
    by_cases ha : env.accessOk = true
    · simp only [ha, if_true]
      match req.hooks.onSkipFiles with
      | none => exact emits_pure _ P
      | some throws =>
          exact emits_bind (emits_emit _ P (h2 ha)) fun _ => emits_pure _ P
    · simp at ha; simp only [ha]
      simp
      exact emits_pure _ P
  · simp at hs; simp only [hs]
    simp
    exact emits_pure _ P

theorem emits_preFiles (req : Request) (env : Env) (P : Event → Prop)
    (h0 : P .onStart)
    (h1 : P (.ioAccess req.outputDir))
    (h2 : env.accessOk = true → P (.onSkipFiles req.outputDir)) :
    Emits (preFiles req env) P := by
  unfold preFiles
  by_cases hs : req.source.isEmpty = true
  · simp only [hs, if_true]; exact emits_throwE _ P
  · simp at hs; simp only [hs]
    simp
    by_cases ho : req.outputDir.isEmpty = true
    · simp only [ho, if_true]; exact emits_throwE _ P
    · simp at ho; simp only [ho]
      simp
      exact emits_bind (emits_fireHook _ _ _ P h0) fun _ => emits_skipCheck req env P h1 h2

theorem emits_writeAll (req : Request) (env : Env) (files : List (String × Nat))
    (P : Event → Prop)
    (h1 : ∀ p, P (.ioWriteFile p)) (h2 : ∀ p, P (.onFileWritten p)) :
    Emits (writeAll req env files) P := by
  induction files with
  | nil => exact emits_pure _ P
  | cons f rest ih =>
      refine emits_bind ?_ fun _ => ih
      unfold writeOne
      refine emits_bind (emits_emit _ P (h1 _)) fun _ => ?_
      by_cases hw : env.writeOk (env.joinPath req.outputDir f.1) = true
      · simp only [hw, if_true]
        exact emits_fireHook _ _ _ P (h2 _)
      · simp at hw; simp only [hw]
        simp
        exact emits_throwE _ P

theorem emits_icoCopy (req : Request) (env : Env) (P : Event → Prop)
    (h1 : P (.ioCopyFile (env.joinPath req.outputDir "favicon.ico")
      (env.joinPath (req.rootDir.getD "") "favicon.ico")))
    (h2 : P (.onIcoCopied (env.joinPath (req.rootDir.getD "") "favicon.ico"))) :
    Emits (icoCopy req env) P := by
  unfold icoCopy
  by_cases hc : req.copyIcoToRoot = true
  · simp only [hc, if_true]
    by_cases hr : truthyStr req.rootDir = true
    · simp only [hr, if_true]
      refine emits_bind (emits_emit _ P h1) fun _ => ?_
      by_cases hk : env.copyOk = true
      · simp only [hk, if_true]
        exact emits_fireHook _ _ _ P h2
      · simp at hk; simp only [hk]
        simp
        exact emits_throwE _ P
    · simp at hr; simp only [hr]
      simp
      exact emits_throwE _ P
  · simp at hc; simp only [hc]
    simp
    exact emits_pure _ P

/-- When the rootDir option is falsy, the ico-copy step can emit
nothing at all (it either throws the configuration error or the
copyIcoToRoot flag is off). -/
theorem emits_icoCopy_noRoot (req : Request) (env : Env) (P : Event → Prop)
    (h : truthyStr req.rootDir = false) : Emits (icoCopy req env) P := by
  unfold icoCopy
  by_cases hc : req.copyIcoToRoot = true
  · simp only [hc, if_true, h]
    simp
    exact emits_throwE _ P
  · simp at hc; simp only [hc]
    simp
    exact emits_pure _ P

theorem emits_filesPhase (req : Request) (env : Env) (P : Event → Prop)
    (h1 : P (.ioMkdirOut req.outputDir))
    (h2 : P (.ioLoadSvg req.source))
    (h3 : P .ioGetAdapter)
    (h4 : P (.ioGenerateFiles req.settings))
    (h5 : ∀ p, P (.ioWriteFile p)) (h6 : ∀ p, P (.onFileWritten p))
    (h7 : Emits (icoCopy req env) P) :
    Emits (filesPhase req env) P := by
  unfold filesPhase
  refine emits_bind (emits_emit _ P h1) fun _ => ?_
  by_cases hm : env.mkdirOutOk = true
  · simp only [hm, if_true]
    refine emits_bind (emits_emit _ P h2) fun _ => ?_
    match env.loadSvg req.source with
    | .error m => exact emits_throwE _ P
    | .ok icon =>
        refine emits_bind (emits_emit _ P h3) fun _ => ?_
        match env.adapter with
        | .error m => exact emits_throwE _ P
        | .ok ad =>
            refine emits_bind (emits_emit _ P h4) fun _ => ?_
            match env.fileSet icon req.settings ad with
            | .error m => exact emits_throwE _ P
            | .ok files =>
                exact emits_bind (emits_writeAll req env files P h5 h6) fun _ => h7
  · simp at hm; simp only [hm]
    simp
    exact emits_throwE _ P

theorem emits_htmlPhase (req : Request) (env : Env) (P : Event → Prop)
    (h1 : P (.ioGenHtml req.settings (String.join (env.markups req.settings))))
    (h2 : P (.ioMkdirHtml (env.dirname (req.htmlOutput.getD ""))))
    (h3 : P (.ioWriteHtml (req.htmlOutput.getD "")
      (String.join (env.markups req.settings))))
    (h4 : P (.onHtmlWritten (req.htmlOutput.getD ""))) :
    Emits (htmlPhase req env) P := by
  unfold htmlPhase
  refine emits_bind (emits_emit _ P h1) fun _ => ?_
  by_cases ho : truthyStr req.htmlOutput = true
  · simp only [ho, if_true]
    refine emits_bind (emits_emit _ P h2) fun _ => ?_
    by_cases hm : env.mkdirHtmlOk = true
    · simp only [hm, if_true]
      refine emits_bind (emits_emit _ P h3) fun _ => ?_
      by_cases hw : env.writeHtmlOk = true
      · simp only [hw, if_true]
        exact emits_fireHook _ _ _ P h4
      · simp at hw; simp only [hw]
        simp
        exact emits_throwE _ P
    · simp at hm; simp only [hm]
      simp
      exact emits_throwE _ P
  · simp at ho; simp only [ho]
    simp
    exact emits_pure _ P

theorem emits_generateFavicons (req : Request) (env : Env) (P : Event → Prop)
    (hpre : Emits (preFiles req env) P)
    (hfiles : Emits (filesPhase req env) P)
    (hhtml : Emits (htmlPhase req env) P) :
    Emits (generateFaviconsM req env) P := by
  unfold generateFaviconsM preHtml
  refine emits_bind (emits_bind hpre fun ex => ?_) fun _ => hhtml
  by_cases he : ex = true
  · simp only [he, if_true]; exact emits_pure _ P
  · simp at he; simp only [he]
    simp
    exact hfiles

/-- All events of a full run satisfy P, given the per-phase event
obligations. -/
theorem trace_all (req : Request) (env : Env) (P : Event → Prop)
    (hpre : Emits (preFiles req env) P)
    (hfiles : Emits (filesPhase req env) P)
    (hhtml : Emits (htmlPhase req env) P) :
    ∀ e ∈ (generateFavicons req env).2, P e := by
  obtain ⟨Δ, he, hp⟩ := emits_generateFavicons req env P hpre hfiles hhtml []
  intro e hmem
  unfold generateFavicons at hmem
  rw [he] at hmem
  simp at hmem
  exact hp e hmem

/-! ### Adapters (src/adapters/node.ts and the Vite adapter) -/

/-- The request delegated by generateFaviconsNode (node.ts lines 63-83):
source and outputDir are resolved unconditionally, rootDir and
htmlOutput only when truthy (`options.rootDir ? path.resolve(...) :
undefined`); everything else is the spread of the incoming options.
`resolve` stands for `p => path.resolve(process.cwd(), p)`. -/
def nodeAdapterRequest (resolve : String → String) (o : Request) : Request :=
  { o with
    source := resolve o.source
    outputDir := resolve o.outputDir
    rootDir :=
      match o.rootDir with
      | some r => if r.isEmpty then none else some (resolve r)
      | none => none
    htmlOutput :=
      match o.htmlOutput with
      | some h => if h.isEmpty then none else some (resolve h)
      | none => none }

/-- The node adapter: resolve paths, delegate to the core generator. -/
def generateFaviconsNode (resolve : String → String) (o : Request) (env : Env) :
    Except Err Unit × List Event :=
  generateFavicons (nodeAdapterRequest resolve o) env

/-- The request delegated by the Vite plugin's buildStart (the Vite
adapter, lines 85-101): identical resolution against the project root
(`resolve` stands for `p => path.resolve(root, p)`). -/
def viteAdapterRequest (resolve : String → String) (o : Request) : Request :=
  { o with
    source := resolve o.source
    outputDir := resolve o.outputDir
    rootDir :=
      match o.rootDir with
      | some r => if r.isEmpty then none else some (resolve r)
      | none => none
    htmlOutput :=
      match o.htmlOutput with
      | some h => if h.isEmpty then none else some (resolve h)
      | none => none }

/-- The Vite adapter's buildStart: resolve paths, delegate to the core
generator. -/
def realFaviconBuildStart (resolve : String → String) (o : Request) (env : Env) :
    Except Err Unit × List Event :=
  generateFavicons (viteAdapterRequest resolve o) env

/-! ### The options destructuring (generate.ts lines 66-75) -/

/-- The seven orchestration-only property names extracted by the
destructuring; the rest-spread `...faviconSettings` keeps every other
property. -/
def orchestrationKeys : List String :=
  ["source", "outputDir", "htmlOutput", "skipIfExists", "copyIcoToRoot",
    "rootDir", "hooks"]

/-- The rest-spread `...faviconSettings`: the options object with the
seven orchestration-only properties removed. -/
def restSettings (opts : OptionsMap) : OptionsMap :=
  opts.filter fun kv => !(orchestrationKeys.contains kv.1)

/-- Read a string-valued property; a missing one behaves like "". -/
def getStr (opts : OptionsMap) (k : String) : String :=
  match ((opts.find? fun kv => kv.1 == k).map (·.2) : Option OptVal) with
  | some (.s v) => v
  | _ => ""

/-- Read an optional string-valued property. -/
def getOptStr (opts : OptionsMap) (k : String) : Option String :=
  match ((opts.find? fun kv => kv.1 == k).map (·.2) : Option OptVal) with
  | some (.s v) => some v
  | _ => none

/-- Read an optional boolean-valued property. -/
def getOptBool (opts : OptionsMap) (k : String) : Option Bool :=
  match ((opts.find? fun kv => kv.1 == k).map (·.2) : Option OptVal) with
  | some (.b v) => some v
  | _ => none

/-- Read the hooks property. -/
def getHooks (opts : OptionsMap) (k : String) : Hooks :=
  match ((opts.find? fun kv => kv.1 == k).map (·.2) : Option OptVal) with
  | some (.hk v) => v
  | _ => {}

/-- The typed view produced by the destructuring on generate.ts lines
66-75 applied to a raw options object. -/
def mkRequest (opts : OptionsMap) : Request :=
  { source := getStr opts "source"
    outputDir := getStr opts "outputDir"
    htmlOutput := getOptStr opts "htmlOutput"
    skipIfExists := getOptBool opts "skipIfExists"
    copyIcoToRoot := (getOptBool opts "copyIcoToRoot").getD false
    rootDir := getOptStr opts "rootDir"
    hooks := getHooks opts "hooks"
    settings := restSettings opts }

/-- generateFavicons on the raw options object. -/
def generateFaviconsFromMap (opts : OptionsMap) (env : Env) :
    Except Err Unit × List Event :=
  generateFavicons (mkRequest opts) env

/-- The settings payload carried by a collaborator-invocation event. -/
def settingsOf (e : Event) : Option OptionsMap :=
  match e with
  | .ioGenerateFiles s => some s
  | .ioGenHtml s _ => some s
  | _ => none

/-- The settings payloads handed to the file-generation and the
HTML-generation collaborators during a run. -/
def settingsEvents (tr : List Event) : List OptionsMap :=
  tr.filterMap settingsOf

/-! ### Concrete evaluation data for counterexamples and witnesses -/

/-- Decidable equality on Except, for concrete evaluation of run
outcomes. -/
instance instDecEqExcept {ε : Type} {α : Type} [DecidableEq ε] [DecidableEq α] :
    DecidableEq (Except ε α) := fun x y =>
  match x, y with
  | .ok a, .ok b =>
      if h : a = b then isTrue (by rw [h])
      else isFalse (by intro hc; injection hc; contradiction)
  | .error e, .error f =>
      if h : e = f then isTrue (by rw [h])
      else isFalse (by intro hc; injection hc; contradiction)
  | .ok _, .error _ => isFalse fun hc => Except.noConfusion hc
  | .error _, .ok _ => isFalse fun hc => Except.noConfusion hc

/-- A concrete happy-path environment. -/
def demoEnv : Env where
  accessOk := true
  mkdirOutOk := true
  loadSvg := fun _ => .ok 7
  adapter := .ok 1
  fileSet := fun _ _ _ => .ok [("favicon.ico", 0), ("icon.svg", 1)]
  writeOk := fun _ => true
  copyOk := true
  markups := fun _ => ["<link>", "<meta>"]
  mkdirHtmlOk := true
  writeHtmlOk := true
  joinPath := fun a b => a ++ "/" ++ b
  dirname := fun _ => "parent"

/-- Nonempty strings are not isEmpty. -/
theorem isEmpty_false_of_ne {s : String} (h : s ≠ "") : s.isEmpty = false := by
  rw [Bool.eq_false_iff]
  intro hh
  exact h ((String.isEmpty_iff s).mp hh)

/-- zero-count helper. -/
theorem count_eq_zero_of_forall_ne {l : List Event} {x : Event}
    (h : ∀ e ∈ l, e ≠ x) : l.count x = 0 := by
  rw [List.count_eq_zero]
  intro hx
  exact (h x hx) rfl

/-! ### Claims -/

/-- C3: for every request with absent/empty source or outputDir,
generateFavicons fails with the corresponding missing-required-option
configuration error before any hook fires and before any filesystem
I/O is attempted: the event trace of the invocation is empty. -/
theorem claim3_missing_required_fails_before_hooks (req : Request) (env : Env)
    (h : req.source = "" ∨ req.outputDir = "") :
    (generateFavicons req env).2 = [] ∧
      (generateFavicons req env).1 =
        .error (if req.source = "" then Err.missingSource else Err.missingOutputDir) := by
  by_cases hs : req.source = ""
  · have he : req.source.isEmpty = true := by simp [String.isEmpty_iff, hs]
    have hp := preFiles_missingSource req env [] he
    constructor <;>
      simp [generateFavicons, generateFaviconsM, preHtml, Pipe.bind, hp, hs]
  · have ho : req.outputDir = "" := by
      rcases h with h | h
      · exact absurd h hs
      · exact h
    have hse : req.source.isEmpty = false := isEmpty_false_of_ne hs
    have hoe : req.outputDir.isEmpty = true := by simp [String.isEmpty_iff, ho]
    have hp := preFiles_missingOutputDir req env [] hse hoe
    constructor <;>
      simp [generateFavicons, generateFaviconsM, preHtml, Pipe.bind, hp, hs]

/-- Witness for C3 at a concrete input. -/
theorem claim3_witness :
    (generateFavicons { source := "", outputDir := "out" } demoEnv).2 = [] ∧
      (generateFavicons { source := "", outputDir := "out" } demoEnv).1 =
        .error .missingSource := by
  have h := claim3_missing_required_fails_before_hooks
    { source := "", outputDir := "out" } demoEnv (.inl rfl)
  simpa using h

/-- Events a run may append after the files-phase decision point: the
HTML phase only produces these four shapes. -/
def htmlShape (e : Event) : Prop :=
  match e with
  | .ioGenHtml _ _ => True
  | .ioMkdirHtml _ => True
  | .ioWriteHtml _ _ => True
  | .onHtmlWritten _ => True
  | _ => False

/-- C1 (amended): on an existing output directory with skipIfExists at
its default or true, and provided the onStart and onSkipFiles hooks,
when present, do not throw, the run fires onSkipFiles exactly once with
the output directory path (whenever the hook is installed), never fires
onFileWritten, and performs no output-directory creation, no image
normalization, no file-set generation and no favicon file writes. -/
theorem claim1_skip_path_amended (req : Request) (env : Env)
    (hs : req.source ≠ "") (ho : req.outputDir ≠ "")
    (hskip : skipEnabled req = true) (hacc : env.accessOk = true)
    (hstart : req.hooks.onStart ≠ some true)
    (hskipHook : req.hooks.onSkipFiles ≠ some true) :
    ((generateFavicons req env).2.count (.onSkipFiles req.outputDir) =
        (match req.hooks.onSkipFiles with | some _ => 1 | none => 0)) ∧
      (∀ p, Event.onFileWritten p ∉ (generateFavicons req env).2) ∧
      (∀ d, Event.ioMkdirOut d ∉ (generateFavicons req env).2) ∧
      (∀ s, Event.ioLoadSvg s ∉ (generateFavicons req env).2) ∧
      (∀ s, Event.ioGenerateFiles s ∉ (generateFavicons req env).2) ∧
      (∀ p, Event.ioWriteFile p ∉ (generateFavicons req env).2) := by
  have hse : req.source.isEmpty = false := isEmpty_false_of_ne hs
  have hoe : req.outputDir.isEmpty = false := isEmpty_false_of_ne ho
  have hpre := preHtml_skip req env [] hse hoe hstart hskip hacc hskipHook
  simp only [List.nil_append] at hpre
  obtain ⟨Δ, heq, hp⟩ :=
    emits_htmlPhase req env htmlShape trivial trivial trivial trivial
      (hookEvs req.hooks.onStart .onStart ++
        (.ioAccess req.outputDir ::
          hookEvs req.hooks.onSkipFiles (.onSkipFiles req.outputDir)))
  have hrun : (generateFavicons req env).2 =
      (hookEvs req.hooks.onStart .onStart ++
        (.ioAccess req.outputDir ::
          hookEvs req.hooks.onSkipFiles (.onSkipFiles req.outputDir))) ++ Δ := by
    simp only [generateFavicons, generateFaviconsM, Pipe.bind, hpre]
    exact heq
  have hΔskip : ∀ d, ∀ e ∈ Δ, e ≠ Event.onSkipFiles d := by
    intro d e he hcontra
    have := hp e he
    rw [hcontra] at this
    exact this
  have hΔfile : ∀ p, ∀ e ∈ Δ, e ≠ Event.onFileWritten p := by
    intro p e he hcontra
    have := hp e he
    rw [hcontra] at this
    exact this
  have hΔmk : ∀ d, ∀ e ∈ Δ, e ≠ Event.ioMkdirOut d := by
    intro d e he hcontra
    have := hp e he
    rw [hcontra] at this
    exact this
  have hΔld : ∀ s, ∀ e ∈ Δ, e ≠ Event.ioLoadSvg s := by
    intro s e he hcontra
    have := hp e he
    rw [hcontra] at this
    exact this
  have hΔgen : ∀ s, ∀ e ∈ Δ, e ≠ Event.ioGenerateFiles s := by
    intro s e he hcontra
    have := hp e he
    rw [hcontra] at this
    exact this
  have hΔwr : ∀ p, ∀ e ∈ Δ, e ≠ Event.ioWriteFile p := by
    intro p e he hcontra
    have := hp e he
    rw [hcontra] at this
    exact this
  rw [hrun]
  refine ⟨?_, ?_, ?_, ?_, ?_, ?_⟩
  · rw [List.count_append,
      count_eq_zero_of_forall_ne (hΔskip req.outputDir)]
    match hsf : req.hooks.onSkipFiles with
    | none =>
        match hst : req.hooks.onStart with
        | none => simp [hookEvs, List.count_cons, List.count_nil]
        | some b => simp [hookEvs, List.count_cons, List.count_nil, List.count_append]
    | some b =>
        match hst : req.hooks.onStart with
        | none => simp [hookEvs, List.count_cons, List.count_nil, List.count_append]
        | some b2 => simp [hookEvs, List.count_cons, List.count_nil, List.count_append]
  · intro p hmem
    rcases List.mem_append.mp hmem with h | h
    · match hst : req.hooks.onStart, hsf : req.hooks.onSkipFiles with
      | none, none => rw [hst, hsf] at h; simp [hookEvs] at h
      | none, some b => rw [hst, hsf] at h; simp [hookEvs] at h
      | some b, none => rw [hst, hsf] at h; simp [hookEvs] at h
      | some b, some b2 => rw [hst, hsf] at h; simp [hookEvs] at h
    · exact (hΔfile p _ h) rfl
  · intro d hmem
    rcases List.mem_append.mp hmem with h | h
    · match hst : req.hooks.onStart, hsf : req.hooks.onSkipFiles with
      | none, none => rw [hst, hsf] at h; simp [hookEvs] at h
      | none, some b => rw [hst, hsf] at h; simp [hookEvs] at h
      | some b, none => rw [hst, hsf] at h; simp [hookEvs] at h
      | some b, some b2 => rw [hst, hsf] at h; simp [hookEvs] at h
    · exact (hΔmk d _ h) rfl
  · intro s hmem
    rcases List.mem_append.mp hmem with h | h
    · match hst : req.hooks.onStart, hsf : req.hooks.onSkipFiles with
      | none, none => rw [hst, hsf] at h; simp [hookEvs] at h
      | none, some b => rw [hst, hsf] at h; simp [hookEvs] at h
      | some b, none => rw [hst, hsf] at h; simp [hookEvs] at h
      | some b, some b2 => rw [hst, hsf] at h; simp [hookEvs] at h
    · exact (hΔld s _ h) rfl
  · intro s hmem
    rcases List.mem_append.mp hmem with h | h
    · match hst : req.hooks.onStart, hsf : req.hooks.onSkipFiles with
      | none, none => rw [hst, hsf] at h; simp [hookEvs] at h
      | none, some b => rw [hst, hsf] at h; simp [hookEvs] at h
      | some b, none => rw [hst, hsf] at h; simp [hookEvs] at h
      | some b, some b2 => rw [hst, hsf] at h; simp [hookEvs] at h
    · exact (hΔgen s _ h) rfl
  · intro p hmem
    rcases List.mem_append.mp hmem with h | h
    · match hst : req.hooks.onStart, hsf : req.hooks.onSkipFiles with
      | none, none => rw [hst, hsf] at h; simp [hookEvs] at h
      | none, some b => rw [hst, hsf] at h; simp [hookEvs] at h
      | some b, none => rw [hst, hsf] at h; simp [hookEvs] at h
      | some b, some b2 => rw [hst, hsf] at h; simp [hookEvs] at h
    · exact (hΔwr p _ h) rfl

/-- Concrete input refuting C1 as stated: present onSkipFiles hook that
throws, present non-throwing onFileWritten hook. -/
def cexSkipThrowReq : Request :=
  { source := "logo.png", outputDir := "out",
    hooks := { onSkipFiles := some true, onFileWritten := some false } }

/-- C1 counterexample: with source and outputDir non-empty, skipIfExists
at its default and a succeeding existence probe, a throwing onSkipFiles
hook is swallowed by the probe's catch, so the run creates the output
directory and writes favicon files — contradicting the claimed "no
directory creation ... no favicon file writes". -/
theorem claim1_counterexample :
    (cexSkipThrowReq.source ≠ "" ∧ cexSkipThrowReq.outputDir ≠ "" ∧
      skipEnabled cexSkipThrowReq = true ∧ demoEnv.accessOk = true) ∧
      Event.ioMkdirOut "out" ∈ (generateFavicons cexSkipThrowReq demoEnv).2 ∧
      Event.onFileWritten "out/favicon.ico" ∈
        (generateFavicons cexSkipThrowReq demoEnv).2 := by
  decide

theorem htmlPhase_mkdirFail (req : Request) (env : Env) (tr : List Event)
    (h1 : truthyStr req.htmlOutput = true) (h2 : env.mkdirHtmlOk = false) :
    htmlPhase req env tr =
      (.error (.ioErr "mkdirHtml"), tr ++
        [.ioGenHtml req.settings (String.join (env.markups req.settings)),
          .ioMkdirHtml (env.dirname (req.htmlOutput.getD ""))]) := by
  simp [htmlPhase, h1, h2, Pipe.bind, emit, throwE]

theorem htmlPhase_writeFail (req : Request) (env : Env) (tr : List Event)
    (h1 : truthyStr req.htmlOutput = true) (h2 : env.mkdirHtmlOk = true)
    (h3 : env.writeHtmlOk = false) :
    htmlPhase req env tr =
      (.error (.ioErr "writeHtml"), tr ++
        [.ioGenHtml req.settings (String.join (env.markups req.settings)),
          .ioMkdirHtml (env.dirname (req.htmlOutput.getD "")),
          .ioWriteHtml (req.htmlOutput.getD "")
            (String.join (env.markups req.settings))]) := by
  simp [htmlPhase, h1, h2, h3, Pipe.bind, emit, throwE]

/-- The HTML collaborator is always invoked, and the markup is the
concatenation of its fragments, whatever else the HTML phase does. -/
theorem genHtml_mem_htmlPhase (req : Request) (env : Env) (tr : List Event) :
    Event.ioGenHtml req.settings (String.join (env.markups req.settings)) ∈
      (htmlPhase req env tr).2 := by
  by_cases ho : truthyStr req.htmlOutput = true
  · by_cases hm : env.mkdirHtmlOk = true
    · by_cases hw : env.writeHtmlOk = true
      · match hh : req.hooks.onHtmlWritten with
        | some true => rw [htmlPhase_hookThrow req env tr ho hm hw hh]; simp
        | some false => rw [htmlPhase_out req env tr ho hm hw (by simp [hh])]; simp
        | none => rw [htmlPhase_out req env tr ho hm hw (by simp [hh])]; simp
      · have hw' : env.writeHtmlOk = false := by simpa using hw
        rw [htmlPhase_writeFail req env tr ho hm hw']; simp
    · have hm' : env.mkdirHtmlOk = false := by simpa using hm
      rw [htmlPhase_mkdirFail req env tr ho hm']; simp
  · rw [htmlPhase_noOut req env tr (by simpa using ho)]; simp

/-- Every event of an invoked hook slot is the slot's event. -/
theorem mem_hookEvs {slot : Option Bool} {ev e : Event}
    (h : e ∈ hookEvs slot ev) : e = ev := by
  match slot with
  | none => simp [hookEvs] at h
  | some b => simp [hookEvs] at h; exact h

/-- Shape of the probe events on a non-skipped run. -/
theorem mem_probeEvs (req : Request) (env : Env) {e : Event}
    (h : e ∈ probeEvs req env) :
    e = .ioAccess req.outputDir ∨ e = .onSkipFiles req.outputDir := by
  unfold probeEvs at h
  by_cases hs : skipEnabled req = true
  · rw [hs] at h
    by_cases ha : env.accessOk = true
    · rw [ha] at h; simp at h; tauto
    · have ha' : env.accessOk = false := by simpa using ha
      rw [ha'] at h; simp at h; tauto
  · have hs' : skipEnabled req = false := by simpa using hs
    rw [hs'] at h; simp at h

/-- C2: once validation passed and the run has not failed before the
HTML phase, the markup is computed as the concatenation of the
fragments returned by the HTML-generation collaborator (also on skipped
runs); and when htmlOutput is provided and its directory creation and
write succeed, the parent directory of htmlOutput is created, the
concatenated markup is written there, and onHtmlWritten (when
installed) fires with that path. -/
theorem claim2_html_phase (req : Request) (env : Env) (tr0 : List Event)
    (hpre : preHtml req env [] = (.ok (), tr0))
    (hm : env.mkdirHtmlOk = true) (hw : env.writeHtmlOk = true) :
    Event.ioGenHtml req.settings (String.join (env.markups req.settings)) ∈
      (generateFavicons req env).2 ∧
      (∀ h, req.htmlOutput = some h → h ≠ "" →
        Event.ioMkdirHtml (env.dirname h) ∈ (generateFavicons req env).2 ∧
          Event.ioWriteHtml h (String.join (env.markups req.settings)) ∈
            (generateFavicons req env).2 ∧
          (req.hooks.onHtmlWritten ≠ none →
            Event.onHtmlWritten h ∈ (generateFavicons req env).2)) := by
  have hphase : generateFavicons req env = htmlPhase req env tr0 := by
    simp only [generateFavicons, generateFaviconsM, Pipe.bind, hpre]
  rw [hphase]
  refine ⟨genHtml_mem_htmlPhase req env tr0, ?_⟩
  intro h hh hne
  have hgd : req.htmlOutput.getD "" = h := by rw [hh]; rfl
  have ht : truthyStr req.htmlOutput = true := by
    rw [hh]
    simp [truthyStr, isEmpty_false_of_ne hne]
  match hhook : req.hooks.onHtmlWritten with
  | some true =>
      rw [htmlPhase_hookThrow req env tr0 ht hm hw hhook, hgd]
      simp
  | some false =>
      rw [htmlPhase_out req env tr0 ht hm hw (by simp [hhook]), hgd, hhook]
      simp [hookEvs]
  | none =>
      rw [htmlPhase_out req env tr0 ht hm hw (by simp [hhook]), hgd, hhook]
      refine ⟨by simp, by simp, ?_⟩
      intro hcon
      exact absurd rfl hcon

/-- Concrete request for the C2 witness: skipped files phase, html
output configured, observer hook installed. -/
def wHtmlReq : Request :=
  { source := "logo.png", outputDir := "out",
    htmlOutput := some "site/head.html",
    hooks := { onHtmlWritten := some false } }

/-- Witness for C2: a skipped run still computes the markup and writes
htmlOutput, firing onHtmlWritten. -/
theorem claim2_witness :
    Event.ioGenHtml [] "<link><meta>" ∈ (generateFavicons wHtmlReq demoEnv).2 ∧
      Event.ioMkdirHtml "parent" ∈ (generateFavicons wHtmlReq demoEnv).2 ∧
      Event.ioWriteHtml "site/head.html" "<link><meta>" ∈
        (generateFavicons wHtmlReq demoEnv).2 ∧
      Event.onHtmlWritten "site/head.html" ∈ (generateFavicons wHtmlReq demoEnv).2 := by
  have h := claim2_html_phase wHtmlReq demoEnv [.ioAccess "out"] (by decide) rfl rfl
  have h2 := h.2 "site/head.html" rfl (by decide)
  exact ⟨h.1, h2.1, h2.2.1, h2.2.2 (by decide)⟩

/-- Shape of every event of a run that takes the skip path. -/
theorem skip_trace_shapes (req : Request) (env : Env)
    (hs : req.source ≠ "") (ho : req.outputDir ≠ "")
    (hskip : skipEnabled req = true) (hacc : env.accessOk = true)
    (hstart : req.hooks.onStart ≠ some true)
    (hskipHook : req.hooks.onSkipFiles ≠ some true) :
    ∀ e ∈ (generateFavicons req env).2,
      e = .onStart ∨ e = .ioAccess req.outputDir ∨
        e = .onSkipFiles req.outputDir ∨ htmlShape e := by
  have hpre := preHtml_skip req env [] (isEmpty_false_of_ne hs)
    (isEmpty_false_of_ne ho) hstart hskip hacc hskipHook
  simp only [List.nil_append] at hpre
  have hphase : generateFavicons req env =
      htmlPhase req env
        (hookEvs req.hooks.onStart .onStart ++
          (.ioAccess req.outputDir ::
            hookEvs req.hooks.onSkipFiles (.onSkipFiles req.outputDir))) := by
    simp only [generateFavicons, generateFaviconsM, Pipe.bind, hpre]
  obtain ⟨Δ, heq, hp⟩ :=
    emits_htmlPhase req env htmlShape trivial trivial trivial trivial
      (hookEvs req.hooks.onStart .onStart ++
        (.ioAccess req.outputDir ::
          hookEvs req.hooks.onSkipFiles (.onSkipFiles req.outputDir)))
  intro e hmem
  rw [hphase, heq] at hmem
  rcases List.mem_append.mp hmem with h | h
  · rcases List.mem_append.mp h with h | h
    · exact .inl (mem_hookEvs h)
    · rcases List.mem_cons.mp h with h | h
      · exact .inr (.inl h)
      · exact .inr (.inr (.inl (mem_hookEvs h)))
  · exact .inr (.inr (.inr (hp e h)))

/-- C5 (amended): on the skip path the pipeline bypasses directory
creation, image normalization, file-set generation, the file
persistence step and the favicon.ico copy (steps 4 through 8), and
resumes at HTML generation (step 9), which is reached and invoked. -/
theorem claim5_skip_resumes_at_html (req : Request) (env : Env)
    (hs : req.source ≠ "") (ho : req.outputDir ≠ "")
    (hskip : skipEnabled req = true) (hacc : env.accessOk = true)
    (hstart : req.hooks.onStart ≠ some true)
    (hskipHook : req.hooks.onSkipFiles ≠ some true) :
    (∀ d, Event.ioMkdirOut d ∉ (generateFavicons req env).2) ∧
      (∀ s, Event.ioLoadSvg s ∉ (generateFavicons req env).2) ∧
      Event.ioGetAdapter ∉ (generateFavicons req env).2 ∧
      (∀ s, Event.ioGenerateFiles s ∉ (generateFavicons req env).2) ∧
      (∀ p, Event.ioWriteFile p ∉ (generateFavicons req env).2) ∧
      (∀ a b, Event.ioCopyFile a b ∉ (generateFavicons req env).2) ∧
      (∀ p, Event.onIcoCopied p ∉ (generateFavicons req env).2) ∧
      Event.ioGenHtml req.settings (String.join (env.markups req.settings)) ∈
        (generateFavicons req env).2 := by
  have hshapes := skip_trace_shapes req env hs ho hskip hacc hstart hskipHook
  have hpre := preHtml_skip req env [] (isEmpty_false_of_ne hs)
    (isEmpty_false_of_ne ho) hstart hskip hacc hskipHook
  simp only [List.nil_append] at hpre
  have hphase : generateFavicons req env =
      htmlPhase req env
        (hookEvs req.hooks.onStart .onStart ++
          (.ioAccess req.outputDir ::
            hookEvs req.hooks.onSkipFiles (.onSkipFiles req.outputDir))) := by
    simp only [generateFavicons, generateFaviconsM, Pipe.bind, hpre]
  refine ⟨?_, ?_, ?_, ?_, ?_, ?_, ?_, ?_⟩
  · intro d hmem
    rcases hshapes _ hmem with h | h | h | h <;> simp [htmlShape] at h
  · intro s hmem
    rcases hshapes _ hmem with h | h | h | h <;> simp [htmlShape] at h
  · intro hmem
    rcases hshapes _ hmem with h | h | h | h <;> simp [htmlShape] at h
  · intro s hmem
    rcases hshapes _ hmem with h | h | h | h <;> simp [htmlShape] at h
  · intro p hmem
    rcases hshapes _ hmem with h | h | h | h <;> simp [htmlShape] at h
  · intro a b hmem
    rcases hshapes _ hmem with h | h | h | h <;> simp [htmlShape] at h
  · intro p hmem
    rcases hshapes _ hmem with h | h | h | h <;> simp [htmlShape] at h
  · rw [hphase]
    exact genHtml_mem_htmlPhase req env _

/-- Concrete input refuting C5 as stated: skip path with copyIcoToRoot
configured and a root directory present. -/
def cexSkipIcoReq : Request :=
  { source := "logo.png", outputDir := "out",
    copyIcoToRoot := true, rootDir := some "root" }

/-- C5 counterexample: on the skip path, the persistence of files
(step 7) and the favicon.ico copy (step 8) do NOT run either — the run
succeeds, yet neither the write of the favicon.ico entry (which the
file-generation collaborator would produce) nor the copy appears in the
trace, contradicting "resumes execution at step 7 ... only those three
steps are skipped". -/
theorem claim5_counterexample :
    (cexSkipIcoReq.copyIcoToRoot = true ∧ cexSkipIcoReq.rootDir = some "root" ∧
      skipEnabled cexSkipIcoReq = true ∧ demoEnv.accessOk = true ∧
      demoEnv.copyOk = true) ∧
      (generateFavicons cexSkipIcoReq demoEnv).1 = .ok () ∧
      Event.ioWriteFile "out/favicon.ico" ∉ (generateFavicons cexSkipIcoReq demoEnv).2 ∧
      Event.ioCopyFile "out/favicon.ico" "root/favicon.ico" ∉
        (generateFavicons cexSkipIcoReq demoEnv).2 := by
  decide

/-- Witness for C1 (amended): concrete skipped run with a well-behaved
onSkipFiles observer. -/
def wSkipReq : Request :=
  { source := "logo.png", outputDir := "out",
    hooks := { onSkipFiles := some false } }

/-- Witness for C1 at a concrete input. -/
theorem claim1_witness :
    (generateFavicons wSkipReq demoEnv).2.count (.onSkipFiles "out") = 1 ∧
      Event.onFileWritten "out/favicon.ico" ∉ (generateFavicons wSkipReq demoEnv).2 ∧
      Event.ioMkdirOut "out" ∉ (generateFavicons wSkipReq demoEnv).2 := by
  have h := claim1_skip_path_amended wSkipReq demoEnv (by decide) (by decide)
    rfl rfl (by decide) (by decide)
  exact ⟨by simpa using h.1, h.2.1 _, h.2.2.1 _⟩

/-- Witness for C5 at a concrete input. -/
theorem claim5_witness :
    Event.ioMkdirOut "out" ∉ (generateFavicons cexSkipIcoReq demoEnv).2 ∧
      Event.ioCopyFile "out/favicon.ico" "root/favicon.ico" ∉
        (generateFavicons cexSkipIcoReq demoEnv).2 ∧
      Event.ioGenHtml [] "<link><meta>" ∈ (generateFavicons cexSkipIcoReq demoEnv).2 := by
  have h := claim5_skip_resumes_at_html cexSkipIcoReq demoEnv (by decide) (by decide)
    rfl rfl (by decide) (by decide)
  exact ⟨h.1 _, h.2.2.2.2.2.1 _ _, by simpa using h.2.2.2.2.2.2.2⟩

/-- Event shapes that are not a favicon.ico copy and not the copy
hook. -/
def noCopyShape (e : Event) : Prop :=
  match e with
  | .ioCopyFile _ _ => False
  | .onIcoCopied _ => False
  | _ => True

/-- Shape of the events before the files phase on a non-skipped run. -/
theorem preEvents_shape (req : Request) (env : Env) {e : Event}
    (h : e ∈ hookEvs req.hooks.onStart .onStart ++ probeEvs req env) :
    e = .onStart ∨ e = .ioAccess req.outputDir ∨ e = .onSkipFiles req.outputDir := by
  rcases List.mem_append.mp h with h | h
  · exact .inl (mem_hookEvs h)
  · rcases mem_probeEvs req env h with h | h
    · exact .inr (.inl h)
    · exact .inr (.inr h)

/-- C4 (amended): with copyIcoToRoot enabled and rootDir absent (or
empty), no favicon.ico copy is ever attempted and onIcoCopied never
fires; and on a run whose files phase executes and whose directory
creation, collaborators, file writes and onStart/onFileWritten hooks
all succeed, the run fails with the missing-rootDir configuration
error.  (The error is raised inside the files phase, after its I/O, and
not at all on the skip path.) -/
theorem claim4_missing_rootdir_amended (req : Request) (env : Env)
    (hc : req.copyIcoToRoot = true) (hr : truthyStr req.rootDir = false) :
    ((∀ a b, Event.ioCopyFile a b ∉ (generateFavicons req env).2) ∧
      (∀ p, Event.onIcoCopied p ∉ (generateFavicons req env).2)) ∧
      (∀ icon ad files,
        req.source ≠ "" → req.outputDir ≠ "" →
        req.hooks.onStart ≠ some true →
        filesPhaseSkipped req env = false →
        env.mkdirOutOk = true →
        env.loadSvg req.source = .ok icon →
        env.adapter = .ok ad →
        env.fileSet icon req.settings ad = .ok files →
        (∀ f ∈ files, env.writeOk (env.joinPath req.outputDir f.1) = true) →
        req.hooks.onFileWritten ≠ some true →
        (generateFavicons req env).1 = .error .missingRootDir) := by
  constructor
  · have hall := trace_all req env noCopyShape
      (emits_preFiles req env noCopyShape trivial trivial fun _ => trivial)
      (emits_filesPhase req env noCopyShape trivial trivial trivial trivial
        (fun _ => trivial) (fun _ => trivial) (emits_icoCopy_noRoot req env noCopyShape hr))
      (emits_htmlPhase req env noCopyShape trivial trivial trivial trivial)
    constructor
    · intro a b hmem
      have := hall _ hmem
      simp [noCopyShape] at this
    · intro p hmem
      have := hall _ hmem
      simp [noCopyShape] at this
  · intro icon ad files hs ho hstart hns hmk hload had hfs hwr hfw
    have hpf := preHtml_files req env [] (isEmpty_false_of_ne hs)
      (isEmpty_false_of_ne ho) hstart hns
    rw [filesPhase_ok req env _ icon ad files hmk hload had hfs hwr hfw,
      icoCopy_noRoot req env _ hc hr] at hpf
    simp only [generateFavicons, generateFaviconsM, Pipe.bind, hpf]

/-- Environment whose existence probe fails, so the files phase runs. -/
def noAccessEnv : Env := { demoEnv with accessOk := false }

/-- Concrete input refuting C4 as stated: copyIcoToRoot without
rootDir, files phase runs. -/
def cexNoRootReq : Request :=
  { source := "logo.png", outputDir := "out", copyIcoToRoot := true }

/-- C4 counterexample: the run does fail with the configuration error,
but only after performing I/O — the output directory was created and
favicon files were written before the error — contradicting "fails ...
before any I/O is performed". -/
theorem claim4_counterexample :
    (cexNoRootReq.copyIcoToRoot = true ∧ cexNoRootReq.rootDir = none) ∧
      (generateFavicons cexNoRootReq noAccessEnv).1 = .error .missingRootDir ∧
      Event.ioMkdirOut "out" ∈ (generateFavicons cexNoRootReq noAccessEnv).2 ∧
      Event.ioWriteFile "out/favicon.ico" ∈
        (generateFavicons cexNoRootReq noAccessEnv).2 := by
  decide

/-- Witness for C4 (amended) at a concrete input. -/
theorem claim4_witness :
    Event.ioCopyFile "out/favicon.ico" "/favicon.ico" ∉
      (generateFavicons cexNoRootReq noAccessEnv).2 ∧
      (generateFavicons cexNoRootReq noAccessEnv).1 = .error .missingRootDir := by
  have h := claim4_missing_rootdir_amended cexNoRootReq noAccessEnv rfl rfl
  refine ⟨h.1.1 _ _, ?_⟩
  exact h.2 7 1 [("favicon.ico", 0), ("icon.svg", 1)] (by decide) (by decide)
    (by decide) rfl rfl rfl rfl rfl (by decide) (by decide)

/-- C6: if the image-normalization collaborator or the file-set
generation collaborator fails on a run whose files phase executes (with
directory creation succeeding), the pipeline aborts with that
collaborator's error and performs zero favicon file writes: no
ioWriteFile and no onFileWritten event occurs. -/
theorem claim6_collaborator_failure (req : Request) (env : Env)
    (hs : req.source ≠ "") (ho : req.outputDir ≠ "")
    (hstart : req.hooks.onStart ≠ some true)
    (hns : filesPhaseSkipped req env = false)
    (hmk : env.mkdirOutOk = true) :
    (∀ m, env.loadSvg req.source = .error m →
      (generateFavicons req env).1 = .error (.collabErr m) ∧
        (∀ p, Event.ioWriteFile p ∉ (generateFavicons req env).2) ∧
        (∀ p, Event.onFileWritten p ∉ (generateFavicons req env).2)) ∧
      (∀ icon ad m, env.loadSvg req.source = .ok icon → env.adapter = .ok ad →
        env.fileSet icon req.settings ad = .error m →
        (generateFavicons req env).1 = .error (.collabErr m) ∧
          (∀ p, Event.ioWriteFile p ∉ (generateFavicons req env).2) ∧
          (∀ p, Event.onFileWritten p ∉ (generateFavicons req env).2)) := by
  have hpf := preHtml_files req env [] (isEmpty_false_of_ne hs)
    (isEmpty_false_of_ne ho) hstart hns
  simp only [List.nil_append] at hpf
  constructor
  · intro m herr
    rw [filesPhase_loadFail req env _ m hmk herr] at hpf
    have hrun : generateFavicons req env =
        (.error (.collabErr m),
          (hookEvs req.hooks.onStart .onStart ++ probeEvs req env) ++
            [.ioMkdirOut req.outputDir, .ioLoadSvg req.source]) := by
      simp only [generateFavicons, generateFaviconsM, Pipe.bind, hpf]
    rw [hrun]
    refine ⟨rfl, ?_, ?_⟩
    · intro p hmem
      rcases List.mem_append.mp hmem with h | h
      · rcases preEvents_shape req env h with h | h | h <;> simp at h
      · simp at h
    · intro p hmem
      rcases List.mem_append.mp hmem with h | h
      · rcases preEvents_shape req env h with h | h | h <;> simp at h
      · simp at h
  · intro icon ad m hload had hfs
    rw [filesPhase_genFail req env _ icon ad m hmk hload had hfs] at hpf
    have hrun : generateFavicons req env =
        (.error (.collabErr m),
          (hookEvs req.hooks.onStart .onStart ++ probeEvs req env) ++
            [.ioMkdirOut req.outputDir, .ioLoadSvg req.source, .ioGetAdapter,
              .ioGenerateFiles req.settings]) := by
      simp only [generateFavicons, generateFaviconsM, Pipe.bind, hpf]
    rw [hrun]
    refine ⟨rfl, ?_, ?_⟩
    · intro p hmem
      rcases List.mem_append.mp hmem with h | h
      · rcases preEvents_shape req env h with h | h | h <;> simp at h
      · simp at h
    · intro p hmem
      rcases List.mem_append.mp hmem with h | h
      · rcases preEvents_shape req env h with h | h | h <;> simp at h
      · simp at h

/-- Environment in which the image normalizer rejects the source. -/
def badLoadEnv : Env :=
  { demoEnv with accessOk := false, loadSvg := fun _ => .error "bad image" }

/-- Plain valid request with no hooks. -/
def wPlainReq : Request := { source := "logo.png", outputDir := "out" }

/-- Witness for C6 at a concrete input. -/
theorem claim6_witness :
    (generateFavicons wPlainReq badLoadEnv).1 = .error (.collabErr "bad image") ∧
      Event.ioWriteFile "out/favicon.ico" ∉ (generateFavicons wPlainReq badLoadEnv).2 := by
  have h := claim6_collaborator_failure wPlainReq badLoadEnv (by decide) (by decide)
    (by decide) rfl rfl
  have ha := h.1 "bad image" rfl
  exact ⟨ha.1, ha.2.1 _⟩

theorem filesPhase_mkdirFail (req : Request) (env : Env) (tr : List Event)
    (h : env.mkdirOutOk = false) :
    filesPhase req env tr = (.error (.ioErr "mkdir"), tr ++ [.ioMkdirOut req.outputDir]) := by
  simp [filesPhase, h, Pipe.bind, emit, throwE]

theorem filesPhase_adapterFail (req : Request) (env : Env) (tr : List Event)
    (icon : Nat) (m : String)
    (h1 : env.mkdirOutOk = true) (h2 : env.loadSvg req.source = .ok icon)
    (h3 : env.adapter = .error m) :
    filesPhase req env tr =
      (.error (.collabErr m),
        tr ++ [.ioMkdirOut req.outputDir, .ioLoadSvg req.source, .ioGetAdapter]) := by
  simp [filesPhase, h1, h2, h3, Pipe.bind, emit, throwE]

theorem filesPhase_split (req : Request) (env : Env) (tr : List Event)
    (icon ad : Nat) (files : List (String × Nat))
    (hmk : env.mkdirOutOk = true)
    (hload : env.loadSvg req.source = .ok icon) (had : env.adapter = .ok ad)
    (hfs : env.fileSet icon req.settings ad = .ok files) :
    filesPhase req env tr =
      Pipe.bind (writeAll req env files) (fun _ => icoCopy req env)
        (tr ++ [.ioMkdirOut req.outputDir, .ioLoadSvg req.source, .ioGetAdapter,
          .ioGenerateFiles req.settings]) := by
  simp [filesPhase, hmk, hload, had, hfs, Pipe.bind, emit]

theorem writeAll_hookThrow (req : Request) (env : Env) (f : String × Nat)
    (rest : List (String × Nat)) (tr : List Event)
    (hw : env.writeOk (env.joinPath req.outputDir f.1) = true)
    (hfw : req.hooks.onFileWritten = some true) :
    writeAll req env (f :: rest) tr =
      (.error (.hookErr "onFileWritten"),
        tr ++ [.ioWriteFile (env.joinPath req.outputDir f.1),
          .onFileWritten (env.joinPath req.outputDir f.1)]) := by
  simp [writeAll, writeOne, hw, hfw, Pipe.bind, emit, fireHook, throwE]

theorem icoCopy_hookThrow (req : Request) (env : Env) (tr : List Event)
    (h1 : req.copyIcoToRoot = true) (h2 : truthyStr req.rootDir = true)
    (h3 : env.copyOk = true) (h4 : req.hooks.onIcoCopied = some true) :
    icoCopy req env tr =
      (.error (.hookErr "onIcoCopied"),
        tr ++ [.ioCopyFile (env.joinPath req.outputDir "favicon.ico")
            (env.joinPath (req.rootDir.getD "") "favicon.ico"),
          .onIcoCopied (env.joinPath (req.rootDir.getD "") "favicon.ico")]) := by
  simp [icoCopy, h1, h2, h3, h4, Pipe.bind, emit, fireHook, throwE]

/-- Write-batch events are writes or write-hook calls. -/
theorem mem_writeEvs {req : Request} {env : Env} {files : List (String × Nat)}
    {e : Event} (h : e ∈ writeEvs req env files) :
    (∃ p, e = .ioWriteFile p) ∨ ∃ p, e = .onFileWritten p := by
  induction files with
  | nil => simp [writeEvs] at h
  | cons f rest ih =>
      rcases List.mem_cons.mp h with h | h
      · exact .inl ⟨_, h⟩
      · rcases List.mem_append.mp h with h | h
        · exact .inr ⟨_, mem_hookEvs h⟩
        · exact ih h

/-- C8 (amended): a present throwing hook aborts the pipeline at the
point of the call with the hook's error, and no later pipeline step
runs — for onStart, onFileWritten, onIcoCopied and onHtmlWritten.  The
onSkipFiles hook is the exception: its call sits inside the existence
probe's try/catch, so its exception is swallowed and the files phase
runs as if the output directory did not exist. -/
theorem claim8_hook_throw_amended :
    (∀ (req : Request) (env : Env), req.source ≠ "" → req.outputDir ≠ "" →
      req.hooks.onStart = some true →
      generateFavicons req env = (.error (.hookErr "onStart"), [.onStart])) ∧
      (∀ (req : Request) (env : Env) (icon ad : Nat) (f : String × Nat)
          (rest : List (String × Nat)),
        req.source ≠ "" → req.outputDir ≠ "" → req.hooks.onStart ≠ some true →
        filesPhaseSkipped req env = false → env.mkdirOutOk = true →
        env.loadSvg req.source = .ok icon → env.adapter = .ok ad →
        env.fileSet icon req.settings ad = .ok (f :: rest) →
        env.writeOk (env.joinPath req.outputDir f.1) = true →
        req.hooks.onFileWritten = some true →
        (generateFavicons req env).1 = .error (.hookErr "onFileWritten") ∧
          (∀ s h, Event.ioGenHtml s h ∉ (generateFavicons req env).2) ∧
          (∀ a b, Event.ioCopyFile a b ∉ (generateFavicons req env).2)) ∧
      (∀ (req : Request) (env : Env) (icon ad : Nat) (files : List (String × Nat)),
        req.source ≠ "" → req.outputDir ≠ "" → req.hooks.onStart ≠ some true →
        filesPhaseSkipped req env = false → env.mkdirOutOk = true →
        env.loadSvg req.source = .ok icon → env.adapter = .ok ad →
        env.fileSet icon req.settings ad = .ok files →
        (∀ g ∈ files, env.writeOk (env.joinPath req.outputDir g.1) = true) →
        req.hooks.onFileWritten ≠ some true →
        req.copyIcoToRoot = true → truthyStr req.rootDir = true → env.copyOk = true →
        req.hooks.onIcoCopied = some true →
        (generateFavicons req env).1 = .error (.hookErr "onIcoCopied") ∧
          (∀ s h, Event.ioGenHtml s h ∉ (generateFavicons req env).2)) ∧
      (∀ (req : Request) (env : Env) (tr0 : List Event),
        preHtml req env [] = (.ok (), tr0) →
        truthyStr req.htmlOutput = true → env.mkdirHtmlOk = true →
        env.writeHtmlOk = true → req.hooks.onHtmlWritten = some true →
        (generateFavicons req env).1 = .error (.hookErr "onHtmlWritten")) := by
  refine ⟨?_, ?_, ?_, ?_⟩
  · intro req env hs ho hth
    have hp := preFiles_onStartThrow req env []
      (isEmpty_false_of_ne hs) (isEmpty_false_of_ne ho) hth
    simp only [List.nil_append] at hp
    simp only [generateFavicons, generateFaviconsM, preHtml, Pipe.bind, hp]
  · intro req env icon ad f rest hs ho hstart hns hmk hload had hfs hwok hfw
    have hpf := preHtml_files req env [] (isEmpty_false_of_ne hs)
      (isEmpty_false_of_ne ho) hstart hns
    simp only [List.nil_append] at hpf
    rw [filesPhase_split req env _ icon ad (f :: rest) hmk hload had hfs] at hpf
    rw [show Pipe.bind (writeAll req env (f :: rest)) (fun _ => icoCopy req env)
        ((hookEvs req.hooks.onStart .onStart ++ probeEvs req env) ++
          [.ioMkdirOut req.outputDir, .ioLoadSvg req.source, .ioGetAdapter,
            .ioGenerateFiles req.settings]) =
        (.error (.hookErr "onFileWritten"),
          ((hookEvs req.hooks.onStart .onStart ++ probeEvs req env) ++
            [.ioMkdirOut req.outputDir, .ioLoadSvg req.source, .ioGetAdapter,
              .ioGenerateFiles req.settings]) ++
            [.ioWriteFile (env.joinPath req.outputDir f.1),
              .onFileWritten (env.joinPath req.outputDir f.1)]) from by
      simp [Pipe.bind, writeAll_hookThrow req env f rest _ hwok hfw]] at hpf
    have hrun : generateFavicons req env =
        (.error (.hookErr "onFileWritten"),
          ((hookEvs req.hooks.onStart .onStart ++ probeEvs req env) ++
            [.ioMkdirOut req.outputDir, .ioLoadSvg req.source, .ioGetAdapter,
              .ioGenerateFiles req.settings]) ++
            [.ioWriteFile (env.joinPath req.outputDir f.1),
              .onFileWritten (env.joinPath req.outputDir f.1)]) := by
      simp only [generateFavicons, generateFaviconsM, Pipe.bind, hpf]
    rw [hrun]
    refine ⟨rfl, ?_, ?_⟩
    · intro s h hmem
      rcases List.mem_append.mp hmem with hm | hm
      · rcases List.mem_append.mp hm with hm | hm
        · rcases preEvents_shape req env hm with hm | hm | hm <;> simp at hm
        · simp at hm
      · simp at hm
    · intro a b hmem
      rcases List.mem_append.mp hmem with hm | hm
      · rcases List.mem_append.mp hm with hm | hm
        · rcases preEvents_shape req env hm with hm | hm | hm <;> simp at hm
        · simp at hm
      · simp at hm
  · intro req env icon ad files hs ho hstart hns hmk hload had hfs hwr hfw hc hroot hcp hico
    have hpf := preHtml_files req env [] (isEmpty_false_of_ne hs)
      (isEmpty_false_of_ne ho) hstart hns
    simp only [List.nil_append] at hpf
    rw [filesPhase_ok req env _ icon ad files hmk hload had hfs hwr hfw,
      icoCopy_hookThrow req env _ hc hroot hcp hico] at hpf
    have hrun : generateFavicons req env =
        (.error (.hookErr "onIcoCopied"),
          ((hookEvs req.hooks.onStart .onStart ++ probeEvs req env) ++
            (.ioMkdirOut req.outputDir :: .ioLoadSvg req.source :: .ioGetAdapter ::
              .ioGenerateFiles req.settings :: writeEvs req env files)) ++
            [.ioCopyFile (env.joinPath req.outputDir "favicon.ico")
              (env.joinPath (req.rootDir.getD "") "favicon.ico"),
              .onIcoCopied (env.joinPath (req.rootDir.getD "") "favicon.ico")]) := by
      simp only [generateFavicons, generateFaviconsM, Pipe.bind, hpf]
    rw [hrun]
    refine ⟨rfl, ?_⟩
    intro s h hmem
    rcases List.mem_append.mp hmem with hm | hm
    · rcases List.mem_append.mp hm with hm | hm
      · rcases preEvents_shape req env hm with hm | hm | hm <;> simp at hm
      · rcases List.mem_cons.mp hm with hm | hm
        · simp at hm
        · rcases List.mem_cons.mp hm with hm | hm
          · simp at hm
          · rcases List.mem_cons.mp hm with hm | hm
            · simp at hm
            · rcases List.mem_cons.mp hm with hm | hm
              · simp at hm
              · rcases mem_writeEvs hm with ⟨p, hp⟩ | ⟨p, hp⟩ <;> simp at hp
    · simp at hm
  · intro req env tr0 hpre ht hm hw hh
    have hphase : generateFavicons req env = htmlPhase req env tr0 := by
      simp only [generateFavicons, generateFaviconsM, Pipe.bind, hpre]
    rw [hphase, htmlPhase_hookThrow req env tr0 ht hm hw hh]

/-- C8 counterexample: a present, throwing onSkipFiles hook does NOT
abort the pipeline — the run is invoked (its event is in the trace),
yet the overall result is success and subsequent steps (the HTML phase,
and even the whole files phase) still run. -/
theorem claim8_counterexample :
    cexSkipThrowReq.hooks.onSkipFiles = some true ∧
      Event.onSkipFiles "out" ∈ (generateFavicons cexSkipThrowReq demoEnv).2 ∧
      (generateFavicons cexSkipThrowReq demoEnv).1 = .ok () ∧
      Event.ioGenHtml [] "<link><meta>" ∈ (generateFavicons cexSkipThrowReq demoEnv).2 := by
  decide

/-- Concrete request whose onStart hook throws. -/
def wStartThrowReq : Request :=
  { source := "logo.png", outputDir := "out", hooks := { onStart := some true } }

/-- Witness for C8 at a concrete input (onStart slot). -/
theorem claim8_witness :
    generateFavicons wStartThrowReq demoEnv = (.error (.hookErr "onStart"), [.onStart]) :=
  claim8_hook_throw_amended.1 wStartThrowReq demoEnv (by decide) (by decide) rfl

/-- The files phase, however it ends, records the creation attempt of
the output directory. -/
theorem mkdirOut_mem_filesPhase (req : Request) (env : Env) (tr : List Event) :
    Event.ioMkdirOut req.outputDir ∈ (filesPhase req env tr).2 := by
  by_cases hm : env.mkdirOutOk = true
  · match hl : env.loadSvg req.source with
    | .error m => rw [filesPhase_loadFail req env tr m hm hl]; simp
    | .ok icon =>
        match ha : env.adapter with
        | .error m => rw [filesPhase_adapterFail req env tr icon m hm hl ha]; simp
        | .ok ad =>
            match hf : env.fileSet icon req.settings ad with
            | .error m => rw [filesPhase_genFail req env tr icon ad m hm hl ha hf]; simp
            | .ok files =>
                rw [filesPhase_split req env tr icon ad files hm hl ha hf]
                obtain ⟨Δ, heq, _⟩ :=
                  emits_bind
                    (emits_writeAll req env files (fun _ => True)
                      (fun _ => trivial) (fun _ => trivial))
                    (fun _ => emits_icoCopy req env (fun _ => True) trivial trivial)
                    (tr ++ [.ioMkdirOut req.outputDir, .ioLoadSvg req.source,
                      .ioGetAdapter, .ioGenerateFiles req.settings])
                rw [heq]
                simp
  · have hm' : env.mkdirOutOk = false := by simpa using hm
    rw [filesPhase_mkdirFail req env tr hm']
    simp

/-- Events present before the HTML phase stay in the final trace. -/
theorem mem_run_of_mem_preHtml (req : Request) (env : Env) {e : Event}
    (h : e ∈ (preHtml req env []).2) : e ∈ (generateFavicons req env).2 := by
  match hp : preHtml req env [] with
  | (.error er, tr) =>
      rw [hp] at h
      simp only [generateFavicons, generateFaviconsM, Pipe.bind, hp]
      simpa using h
  | (.ok a, tr) =>
      rw [hp] at h
      simp only [generateFavicons, generateFaviconsM, Pipe.bind, hp]
      obtain ⟨Δ, heq, _⟩ :=
        emits_htmlPhase req env (fun _ => True) trivial trivial trivial trivial tr
      rw [heq]
      simp only [List.mem_append]
      exact .inl (by simpa using h)

/-- C10: the idempotency probe is total — it always returns a boolean
and never propagates a failure; onSkipFiles can only appear in a trace
of a run whose existence probe succeeded; and when the probe is enabled
but fs.access fails, the files phase runs (the output-directory
creation is attempted). -/
theorem claim10_probe_total (req : Request) (env : Env) :
    (∀ tr, ∃ b tr2, skipCheck req env tr = (.ok b, tr2)) ∧
      (∀ d, Event.onSkipFiles d ∈ (generateFavicons req env).2 →
        env.accessOk = true) ∧
      (req.source ≠ "" → req.outputDir ≠ "" → req.hooks.onStart ≠ some true →
        skipEnabled req = true → env.accessOk = false →
        Event.ioMkdirOut req.outputDir ∈ (generateFavicons req env).2) := by
  refine ⟨?_, ?_, ?_⟩
  · intro tr
    by_cases hs : skipEnabled req = true
    · by_cases ha : env.accessOk = true
      · match hk : req.hooks.onSkipFiles with
        | none => exact ⟨true, _, skipCheck_hit_none req env tr hs ha hk⟩
        | some false => exact ⟨true, _, skipCheck_hit_hook req env tr hs ha hk⟩
        | some true => exact ⟨false, _, skipCheck_hit_hookThrow req env tr hs ha hk⟩
      · have ha' : env.accessOk = false := by simpa using ha
        exact ⟨false, _, skipCheck_noAccess req env tr hs ha'⟩
    · have hs' : skipEnabled req = false := by simpa using hs
      exact ⟨false, _, skipCheck_disabled req env tr hs'⟩
  · intro d hmem
    by_cases ha : env.accessOk = true
    · exact ha
    · have ha' : env.accessOk = false := by simpa using ha
      have hall := trace_all req env
        (fun e => ∀ d2, e = Event.onSkipFiles d2 → False)
        (emits_preFiles req env _ (by intro d2 hc; simp at hc)
          (by intro d2 hc; simp at hc)
          (fun hacc => by rw [hacc] at ha'; simp at ha'))
        (emits_filesPhase req env _ (by intro d2 hc; simp at hc)
          (by intro d2 hc; simp at hc) (by intro d2 hc; simp at hc)
          (by intro d2 hc; simp at hc) (fun p => by intro d2 hc; simp at hc)
          (fun p => by intro d2 hc; simp at hc)
          (emits_icoCopy req env _ (by intro d2 hc; simp at hc)
            (by intro d2 hc; simp at hc)))
        (emits_htmlPhase req env _ (by intro d2 hc; simp at hc)
          (by intro d2 hc; simp at hc) (by intro d2 hc; simp at hc)
          (by intro d2 hc; simp at hc))
      exact absurd rfl (fun hc => hall _ hmem d hc)
  · intro hs ho hstart hskip hacc
    have hns : filesPhaseSkipped req env = false := by
      simp [filesPhaseSkipped, hacc]
    have hpf := preHtml_files req env [] (isEmpty_false_of_ne hs)
      (isEmpty_false_of_ne ho) hstart hns
    apply mem_run_of_mem_preHtml req env
    rw [hpf]
    exact mkdirOut_mem_filesPhase req env _

/-- Witness for C10 at a concrete input: probe fails, files phase
runs. -/
theorem claim10_witness :
    noAccessEnv.accessOk = false ∧
      Event.ioMkdirOut "out" ∈ (generateFavicons wPlainReq noAccessEnv).2 :=
  ⟨rfl, (claim10_probe_total wPlainReq noAccessEnv).2.2 (by decide) (by decide)
    (by decide) rfl rfl⟩

/-- Every collaborator invocation of a run carries the request's
settings payload. -/
theorem settings_payload_invariant (req : Request) (env : Env) :
    ∀ s ∈ settingsEvents (generateFavicons req env).2, s = req.settings := by
  have hall := trace_all req env
    (fun e => settingsOf e = none ∨ settingsOf e = some req.settings)
    (emits_preFiles req env _ (.inl rfl) (.inl rfl) (fun _ => .inl rfl))
    (emits_filesPhase req env _ (.inl rfl) (.inl rfl) (.inl rfl) (.inr rfl)
      (fun _ => .inl rfl) (fun _ => .inl rfl)
      (emits_icoCopy req env _ (.inl rfl) (.inl rfl)))
    (emits_htmlPhase req env _ (.inr rfl) (.inl rfl) (.inl rfl) (.inl rfl))
  intro s hmem
  obtain ⟨e, hemem, hse⟩ := List.mem_filterMap.mp hmem
  rcases hall e hemem with h | h
  · rw [h] at hse; exact absurd hse (by simp)
  · rw [h] at hse
    injection hse with hs
    exact hs.symm

/-- C7: the settings payload handed to the file-generation collaborator
and to the HTML-generation collaborator is exactly the options object
with the seven orchestration-only properties removed, every remaining
property forwarded verbatim. -/
theorem claim7_settings_passthrough (opts : OptionsMap) (env : Env) :
    (∀ s ∈ settingsEvents (generateFaviconsFromMap opts env).2,
      s = restSettings opts) ∧
      (∀ kv : String × OptVal, kv ∈ restSettings opts ↔
        (kv ∈ opts ∧ kv.1 ∉ orchestrationKeys)) := by
  constructor
  · intro s hmem
    exact settings_payload_invariant (mkRequest opts) env s hmem
  · intro kv
    unfold restSettings
    rw [List.mem_filter]
    constructor
    · rintro ⟨h1, h2⟩
      refine ⟨h1, ?_⟩
      intro hc
      rw [Bool.not_eq_true', ← Bool.not_eq_true] at h2
      exact h2 (List.elem_iff.mpr hc)
    · rintro ⟨h1, h2⟩
      refine ⟨h1, ?_⟩
      rw [Bool.not_eq_true', ← Bool.not_eq_true]
      intro hc
      exact h2 (List.elem_iff.mp hc)

/-- Concrete options object for the C7 witness. -/
def wOpts : OptionsMap :=
  [("source", .s "logo.png"), ("outputDir", .s "out"),
    ("path", .s "/favicons/"), ("skipIfExists", .b false)]

/-- Witness for C7 at a concrete input: the settings payload keeps the
non-orchestration property and drops the orchestration ones. -/
theorem claim7_witness :
    ("path", OptVal.s "/favicons/") ∈ restSettings wOpts ∧
      ("source", OptVal.s "logo.png") ∉ restSettings wOpts := by
  have h := claim7_settings_passthrough wOpts demoEnv
  constructor
  · exact (h.2 _).mpr ⟨by decide, by decide⟩
  · intro hmem
    exact ((h.2 _).mp hmem).2 (by decide)

/-- C9: both adapters delegate to the core generator exactly once,
with source and outputDir resolved against the base directory, rootDir
and htmlOutput resolved when present (truthy), and every other option
field and the hooks forwarded unchanged; the two adapters build
identical requests, and neither adds any behavior beyond this. -/
theorem claim9_adapters_delegate (resolve : String → String) (o : Request)
    (env : Env) :
    generateFaviconsNode resolve o env =
      generateFavicons (nodeAdapterRequest resolve o) env ∧
      realFaviconBuildStart resolve o env =
        generateFavicons (viteAdapterRequest resolve o) env ∧
      nodeAdapterRequest resolve o = viteAdapterRequest resolve o ∧
      (nodeAdapterRequest resolve o).source = resolve o.source ∧
      (nodeAdapterRequest resolve o).outputDir = resolve o.outputDir ∧
      (∀ r, o.rootDir = some r → r ≠ "" →
        (nodeAdapterRequest resolve o).rootDir = some (resolve r)) ∧
      (o.rootDir = none → (nodeAdapterRequest resolve o).rootDir = none) ∧
      (∀ h, o.htmlOutput = some h → h ≠ "" →
        (nodeAdapterRequest resolve o).htmlOutput = some (resolve h)) ∧
      (o.htmlOutput = none → (nodeAdapterRequest resolve o).htmlOutput = none) ∧
      (nodeAdapterRequest resolve o).skipIfExists = o.skipIfExists ∧
      (nodeAdapterRequest resolve o).copyIcoToRoot = o.copyIcoToRoot ∧
      (nodeAdapterRequest resolve o).hooks = o.hooks ∧
      (nodeAdapterRequest resolve o).settings = o.settings := by
  refine ⟨rfl, rfl, rfl, rfl, rfl, ?_, ?_, ?_, ?_, rfl, rfl, rfl, rfl⟩
  · intro r hr hne
    simp [nodeAdapterRequest, hr, isEmpty_false_of_ne hne]
  · intro hr
    simp [nodeAdapterRequest, hr]
  · intro h hh hne
    simp [nodeAdapterRequest, hh, isEmpty_false_of_ne hne]
  · intro hh
    simp [nodeAdapterRequest, hh]

/-- Concrete base-directory resolution for the C9 witness. -/
def wResolve : String → String := fun s => "/base/" ++ s

/-- Concrete adapter options for the C9 witness. -/
def wAdReq : Request :=
  { source := "logo.png", outputDir := "out", rootDir := some "r" }

/-- Witness for C9 at a concrete input. -/
theorem claim9_witness :
    (nodeAdapterRequest wResolve wAdReq).rootDir = some "/base/r" ∧
      generateFaviconsNode wResolve wAdReq demoEnv =
        generateFavicons (nodeAdapterRequest wResolve wAdReq) demoEnv := by
  have h := claim9_adapters_delegate wResolve wAdReq demoEnv
  exact ⟨h.2.2.2.2.2.1 "r" rfl (by decide), h.1⟩

end RealFavicon
